import Mathlib

/-
Verification of the portfolio-analyzer core (src/core/stock.py,
src/core/portfolio.py, examples/advanced_optimization.py) against its
natural-language specification.

Embedding conventions:
* Python floats are modeled by ℚ.  Note that in ℚ, x / 0 = 0, while plain
  Python float division raises ZeroDivisionError; wherever the source can
  perform a plain-Python division whose denominator can be 0, the embedding
  returns Except.error "ZeroDivisionError" at exactly those inputs.  Numpy
  and pandas elementwise divisions do not raise (they produce inf/NaN); such
  sites are modeled by total ℚ division and no claim depends on them.
* Methods that mutate `self` and may raise are embedded as functions
  returning (newState × Option errorMessage); the returned state reflects the
  object after the call even when an exception is raised, because Python
  leaves the partially mutated object behind.
* The market-data provider (yfinance) is passed explicitly: price_of gives
  get_current_price per symbol, sector_of gives the info dict's optional
  'sector' entry, returns_of gives the derived daily-returns series
  (calculate_returns) per symbol.  A fully degraded provider is
  (fun _ => 0, fun _ => none, fun _ => []).
* np.sqrt is passed explicitly as sqrtQ : ℚ → ℚ (no claim depends on the
  values of the square root itself).
* Python dicts are association lists in insertion order; the dict invariant
  (unique keys) is carried as a hypothesis where a proof needs it.
* Wall-clock timestamps (datetime.now(): Transaction.date, creation_date)
  are ambient and not modeled; no claim mentions them.
-/

namespace PortfolioAnalyzer

/-- Python str.upper, written as a plain map over the character list (the
core String.toUpper is implemented by well-founded recursion and does not
reduce in the kernel; this map is its executable equivalent). -/
def upper (s : String) : String :=
  String.mk (s.data.map Char.toUpper)

/-- Immutable record of one buy/sell event (class Transaction in
src/core/stock.py).  transaction_type is a plain string in the source. -/
structure Transaction where
  shares : ℚ
  price : ℚ
  transaction_type : String
  fees : ℚ
deriving DecidableEq

/-- Transaction.total_cost property: shares * price + fees. -/
def Transaction.total_cost (t : Transaction) : ℚ :=
  t.shares * t.price + t.fees

/-- One holding (class Stock in src/core/stock.py).  The lazy yfinance
ticker handle and the TTL cache are provider plumbing and are replaced by
the explicit provider arguments described above. -/
structure Stock where
  symbol : String
  shares : ℚ
  purchase_price : ℚ
  name : Option String
  transactions : List Transaction
deriving DecidableEq

/-- Stock.add_transaction.  Faithful to the source order of effects: the
Transaction is appended first, then shares/avg cost are updated, and only
then (on 'sell') the negative-shares check runs; on failure the method
raises ValueError with the already-mutated object left behind, which the
embedding renders as (mutatedState, some msg). -/
def Stock.add_transaction (st : Stock) (shares price : ℚ)
    (transaction_type : String) (fees : ℚ) : Stock × Option String :=
  let t : Transaction :=
    { shares := shares, price := price,
      transaction_type := transaction_type, fees := fees }
  let st1 := { st with transactions := st.transactions ++ [t] }
  if transaction_type = "buy" then
    let total_cost := st1.shares * st1.purchase_price + t.total_cost
    let newShares := st1.shares + shares
    ({ st1 with
        shares := newShares,
        purchase_price := if newShares > 0 then total_cost / newShares else 0 },
     none)
  else if transaction_type = "sell" then
    let st2 := { st1 with shares := st1.shares - shares }
    if st2.shares < 0 then
      (st2, some "ValueError: cannot sell more shares than owned")
    else
      (st2, none)
  else
    (st1, none)

/-- Stock.__init__: presets the fields and then, when shares > 0 and
purchase_price > 0, calls add_transaction with a 'buy' for the same
shares/price (a 'buy' never raises, so the .1 projection is faithful). -/
def Stock.init (symbol : String) (shares purchase_price : ℚ)
    (name : Option String) : Stock :=
  let st : Stock :=
    { symbol := upper symbol, shares := shares,
      purchase_price := purchase_price, name := name, transactions := [] }
  if shares > 0 ∧ purchase_price > 0 then
    (st.add_transaction shares purchase_price "buy" 0).1
  else
    st

/-- Stock.current_value: shares * get_current_price(). -/
def Stock.current_value (st : Stock) (price_of : String → ℚ) : ℚ :=
  st.shares * price_of st.symbol

/-- Stock.total_invested: shares * purchase_price. -/
def Stock.total_invested (st : Stock) : ℚ :=
  st.shares * st.purchase_price

/-- Stock.gain_loss. -/
def Stock.gain_loss (st : Stock) (price_of : String → ℚ) : ℚ :=
  st.current_value price_of - st.total_invested

/-- Stock.gain_loss_percent (guarded against total_invested = 0). -/
def Stock.gain_loss_percent (st : Stock) (price_of : String → ℚ) : ℚ :=
  if st.total_invested = 0 then 0
  else st.gain_loss price_of / st.total_invested * 100

/-- Stock.calculate_returns: the provider's history mapped through
pct_change().dropna(); the provider is modeled directly by the derived
daily-returns series per symbol (empty for a degraded provider). -/
def Stock.calculate_returns (st : Stock) (returns_of : String → List ℚ) :
    List ℚ :=
  returns_of st.symbol

/-- Mean of a list (pandas .mean()); 0 on the empty list since 0 / 0 = 0. -/
def listMean (l : List ℚ) : ℚ :=
  l.sum / (l.length : ℚ)

/-- Sample variance with ddof = 1 (pandas .var()); the n = 1 case divides by
zero, which pandas renders as NaN and ℚ as 0 — no claim touches it. -/
def sampleVar (l : List ℚ) : ℚ :=
  ((l.map (fun x => (x - listMean l) ^ 2)).sum) / ((l.length : ℚ) - 1)

/-- Sample standard deviation (pandas .std()), via the explicit sqrtQ. -/
def sampleStd (sqrtQ : ℚ → ℚ) (l : List ℚ) : ℚ :=
  sqrtQ (sampleVar l)

/-- Stock.calculate_volatility (annualized=True path used by callers). -/
def Stock.calculate_volatility (st : Stock) (returns_of : String → List ℚ)
    (sqrtQ : ℚ → ℚ) : ℚ :=
  let returns := st.calculate_returns returns_of
  if returns = [] then 0
  else sampleStd sqrtQ returns * sqrtQ 252

/-- Stock.calculate_sharpe_ratio. -/
def Stock.calculate_sharpe_ratio (st : Stock) (returns_of : String → List ℚ)
    (sqrtQ : ℚ → ℚ) (risk_free_rate : ℚ) : ℚ :=
  let returns := st.calculate_returns returns_of
  if returns = [] then 0
  else
    let excess_returns := listMean returns * 252 - risk_free_rate
    let volatility := st.calculate_volatility returns_of sqrtQ
    if volatility = 0 then 0 else excess_returns / volatility

/-- The numeric and sector part of Stock.get_summary (string metadata such
as longName/industry/marketCap is provider pass-through that no claim
mentions). -/
structure Summary where
  symbol : String
  shares : ℚ
  purchase_price : ℚ
  current_price : ℚ
  current_value : ℚ
  total_invested : ℚ
  gain_loss : ℚ
  gain_loss_percent : ℚ
  sector : String
  volatility : ℚ
  sharpe_ratio : ℚ
deriving DecidableEq

/-- Stock.get_summary; sector defaults to 'N/A' when the info dict lacks
one, and sharpe uses the default risk-free rate 0.02. -/
def Stock.get_summary (st : Stock) (price_of : String → ℚ)
    (sector_of : String → Option String) (returns_of : String → List ℚ)
    (sqrtQ : ℚ → ℚ) : Summary :=
  { symbol := st.symbol
    shares := st.shares
    purchase_price := st.purchase_price
    current_price := price_of st.symbol
    current_value := st.current_value price_of
    total_invested := st.total_invested
    gain_loss := st.gain_loss price_of
    gain_loss_percent := st.gain_loss_percent price_of
    sector := (sector_of st.symbol).getD "N/A"
    volatility := st.calculate_volatility returns_of sqrtQ
    sharpe_ratio := st.calculate_sharpe_ratio returns_of sqrtQ (2 / 100) }

/- Association-list model of Python dicts (insertion order preserved). -/

/-- Value stored under a key (first match, as in a dict with unique keys). -/
def findVal {α : Type} : List (String × α) → String → Option α
  | [], _ => none
  | (k1, v) :: rest, k => if k1 = k then some v else findVal rest k

/-- `key in dict`. -/
def containsKey {α : Type} (l : List (String × α)) (k : String) : Bool :=
  (findVal l k).isSome

/-- `dict[key] = value`: replace in place if present, else append. -/
def dictInsert {α : Type} : List (String × α) → String → α → List (String × α)
  | [], k, v => [(k, v)]
  | (k1, v1) :: rest, k, v =>
      if k1 = k then (k1, v) :: rest else (k1, v1) :: dictInsert rest k v

/-- `dict[key] += value` with creation on absence (sector accumulation). -/
def addToVal : List (String × ℚ) → String → ℚ → List (String × ℚ)
  | [], k, v => [(k, v)]
  | (k1, v1) :: rest, k, v =>
      if k1 = k then (k1, v1 + v) :: rest else (k1, v1) :: addToVal rest k v

/-- In-place mutation of the object stored under a key. -/
def updateVal {α : Type} : List (String × α) → String → (α → α) → List (String × α)
  | [], _, _ => []
  | (k1, v) :: rest, k, f =>
      if k1 = k then (k1, f v) :: rest else (k1, v) :: updateVal rest k f

/-- `del dict[key]`. -/
def removeKey {α : Type} (l : List (String × α)) (k : String) :
    List (String × α) :=
  l.filter (fun kv => kv.1 != k)

/-- Sum of the values of an association list. -/
def sumVals (l : List (String × ℚ)) : ℚ :=
  (l.map Prod.snd).sum

/-- class Portfolio (src/core/portfolio.py): name, symbol → Stock dict,
cash, free-form metadata.  creation_date is ambient wall clock (copied
verbatim by load) and not modeled. -/
structure Portfolio where
  name : String
  stocks : List (String × Stock)
  cash : ℚ
  metadata : List (String × String)
deriving DecidableEq

/-- Portfolio.add_stock: uppercase the symbol, extend an existing Stock via
a 'buy' transaction or create a fresh Stock, then deduct shares * price
from cash only when cash ≥ cost (a 'buy' never raises, so .1 is faithful). -/
def Portfolio.add_stock (p : Portfolio) (symbol : String)
    (shares purchase_price : ℚ) (name : Option String) : Portfolio :=
  let sym := upper symbol
  let extended :=
    updateVal p.stocks sym
      (fun st => (st.add_transaction shares purchase_price "buy" 0).1)
  let created := p.stocks ++ [(sym, Stock.init sym shares purchase_price name)]
  let p1 :=
    if containsKey p.stocks sym then { p with stocks := extended }
    else { p with stocks := created }
  let cost := shares * purchase_price
  if p1.cash ≥ cost then { p1 with cash := p1.cash - cost } else p1

/-- Portfolio.remove_stock. -/
def Portfolio.remove_stock (p : Portfolio) (symbol : String) : Portfolio :=
  let sym := upper symbol
  if containsKey p.stocks sym then
    { p with stocks := removeKey p.stocks sym }
  else
    p

/-- Portfolio.sell_stock.  Missing symbol: ValueError before any mutation.
Otherwise the Stock's add_transaction runs (mutating the stored object even
when it raises); on success cash grows by shares * price unconditionally
and the Stock is removed when its share count is exactly 0. -/
def Portfolio.sell_stock (p : Portfolio) (symbol : String) (shares price : ℚ) :
    Portfolio × Option String :=
  let sym := upper symbol
  match findVal p.stocks sym with
  | none => (p, some "ValueError: stock not found in portfolio")
  | some st =>
    let r := st.add_transaction shares price "sell" 0
    let p1 : Portfolio := { p with stocks := updateVal p.stocks sym (fun _ => r.1) }
    match r.2 with
    | some e => (p1, some e)
    | none =>
      let p2 := { p1 with cash := p1.cash + shares * price }
      if r.1.shares = 0 then (p2.remove_stock sym, none) else (p2, none)

/-- Portfolio.total_value: sum of current values plus cash. -/
def Portfolio.total_value (p : Portfolio) (price_of : String → ℚ) : ℚ :=
  (p.stocks.map (fun kv => kv.2.current_value price_of)).sum + p.cash

/-- Portfolio.total_invested. -/
def Portfolio.total_invested (p : Portfolio) : ℚ :=
  (p.stocks.map (fun kv => kv.2.total_invested)).sum

/-- Portfolio.total_gain_loss. -/
def Portfolio.total_gain_loss (p : Portfolio) (price_of : String → ℚ) : ℚ :=
  p.total_value price_of - p.total_invested - p.cash

/-- Portfolio.total_return (0 when nothing is invested). -/
def Portfolio.total_return (p : Portfolio) (price_of : String → ℚ) : ℚ :=
  if p.total_invested = 0 then 0
  else p.total_gain_loss price_of / p.total_invested * 100

/-- Portfolio.get_allocation: {} when total_value is 0, else each holding's
percentage of total value, plus a synthetic CASH entry when cash > 0. -/
def Portfolio.get_allocation (p : Portfolio) (price_of : String → ℚ) :
    List (String × ℚ) :=
  let total := p.total_value price_of
  if total = 0 then []
  else
    let allocation :=
      p.stocks.foldl
        (fun acc kv => dictInsert acc kv.1 (kv.2.current_value price_of / total * 100))
        []
    if p.cash > 0 then dictInsert allocation "CASH" (p.cash / total * 100)
    else allocation

/-- Portfolio.get_sector_allocation: accumulate current values per sector
('Unknown' when the info dict has none), then convert to percentages.  The
conversion is a plain-Python division per entry, so with at least one
holding and a total value of 0 it raises ZeroDivisionError; with no
holdings the comprehension runs over an empty dict and returns {}. -/
def Portfolio.get_sector_allocation (p : Portfolio) (price_of : String → ℚ)
    (sector_of : String → Option String) : Except String (List (String × ℚ)) :=
  let total := p.total_value price_of
  let sectors :=
    p.stocks.foldl
      (fun acc kv =>
        addToVal acc ((sector_of kv.2.symbol).getD "Unknown")
          (kv.2.current_value price_of))
      []
  if sectors = [] then Except.ok []
  else if total = 0 then Except.error "ZeroDivisionError"
  else Except.ok (sectors.map (fun kv => (kv.1, kv.2 / total * 100)))

/-- Positional model of pd.concat(axis=1).fillna(0): pad with zero returns
up to the longest series (date alignment reduced to index alignment). -/
def padTo (n : ℕ) (l : List ℚ) : List ℚ :=
  l ++ List.replicate (n - l.length) 0

/-- Weighted pointwise combination of the collected (returns, weight) pairs. -/
def weightedCombine (pairs : List (List ℚ × ℚ)) : List ℚ :=
  let n := (pairs.map (fun pr => pr.1.length)).foldl max 0
  (List.range n).map
    (fun i => (pairs.map (fun pr => (padTo n pr.1).getD i 0 * pr.2)).sum)

/-- Portfolio.calculate_portfolio_returns.  Empty for an empty portfolio or
when no holding has return data; the per-stock weight
current_value / total_value is a plain-Python division, so a total value of
0 with at least one qualifying holding raises ZeroDivisionError. -/
def Portfolio.calculate_portfolio_returns (p : Portfolio)
    (price_of : String → ℚ) (returns_of : String → List ℚ) :
    Except String (List ℚ) :=
  if p.stocks = [] then Except.ok []
  else
    let total := p.total_value price_of
    let qual := p.stocks.filter (fun kv => !(kv.2.calculate_returns returns_of).isEmpty)
    if qual = [] then Except.ok []
    else if total = 0 then Except.error "ZeroDivisionError"
    else
      Except.ok (weightedCombine (qual.map
        (fun kv => (kv.2.calculate_returns returns_of,
                    kv.2.current_value price_of / total))))

/-- Running combination of a series from its first element: cumprod and
expanding max both have this shape. -/
def runningList (f : ℚ → ℚ → ℚ) : List ℚ → List ℚ
  | [] => []
  | x :: xs => List.scanl f x xs

/-- Insertion into a sorted list (ascending). -/
def insertSorted (x : ℚ) : List ℚ → List ℚ
  | [] => [x]
  | y :: ys => if x ≤ y then x :: y :: ys else y :: insertSorted x ys

/-- Ascending sort (np.percentile sorts its input). -/
def sortAsc (l : List ℚ) : List ℚ :=
  l.foldr insertSorted []

/-- np.percentile with linear interpolation between order statistics. -/
def percentileQ (l : List ℚ) (q : ℚ) : ℚ :=
  let s := sortAsc l
  let n := s.length
  let h := ((n : ℚ) - 1) * (q / 100)
  let lo : ℕ := h.floor.toNat
  let frac := h - (lo : ℚ)
  let a := s.getD lo 0
  let b := s.getD (lo + 1) a
  a + frac * (b - a)

/-- Minimum of a series (pandas .min()); default for the empty list. -/
def listMinD (l : List ℚ) (d : ℚ) : ℚ :=
  match l with
  | [] => d
  | x :: xs => xs.foldl min x

/-- The metrics dict returned by Portfolio.calculate_metrics; the degraded
branch omits the annualized_return key, hence the Option. -/
structure Metrics where
  total_return : ℚ
  annualized_return : Option ℚ
  volatility : ℚ
  sharpe_ratio : ℚ
  max_drawdown : ℚ
  var_95 : ℚ
deriving DecidableEq

/-- Portfolio.calculate_metrics.  An empty returns series yields the zeroed
default dict; otherwise annualized volatility, Sharpe (0 when volatility is
0), max drawdown over the cumulative product, and the 5th-percentile VaR.
The drawdown divisions are numpy elementwise operations (no raising). -/
def Portfolio.calculate_metrics (p : Portfolio) (price_of : String → ℚ)
    (returns_of : String → List ℚ) (sqrtQ : ℚ → ℚ) (risk_free_rate : ℚ) :
    Except String Metrics := do
  let returns ← p.calculate_portfolio_returns price_of returns_of
  if returns = [] then
    return { total_return := p.total_return price_of, annualized_return := none,
             volatility := 0, sharpe_ratio := 0, max_drawdown := 0, var_95 := 0 }
  else
    let volatility := sampleStd sqrtQ returns * sqrtQ 252
    let excess_return := listMean returns * 252 - risk_free_rate
    let sharpe_ratio := if volatility ≠ 0 then excess_return / volatility else 0
    let cumulative := runningList (fun a x => a * x) (returns.map (fun r => 1 + r))
    let running_max := runningList max cumulative
    let drawdown := List.zipWith (fun c m => (c - m) / m) cumulative running_max
    return { total_return := p.total_return price_of
             annualized_return := some (listMean returns * 252 * 100)
             volatility := volatility
             sharpe_ratio := sharpe_ratio
             max_drawdown := listMinD drawdown 0 * 100
             var_95 := percentileQ returns 5 * 100 }

/-- The report dict assembled by Portfolio.analyze. -/
structure Report where
  name : String
  total_value : ℚ
  total_invested : ℚ
  total_gain_loss : ℚ
  total_return : ℚ
  cash : ℚ
  metrics : Metrics
  allocation : List (String × ℚ)
  sector_allocation : List (String × ℚ)
  stocks : List (String × Summary)
  num_stocks : ℕ
deriving DecidableEq

/-- Portfolio.analyze: metrics (default risk-free rate 0.02), allocation,
sector allocation and per-holding summaries; exceptions raised by the
metrics or sector computations propagate to the caller. -/
def Portfolio.analyze (p : Portfolio) (price_of : String → ℚ)
    (returns_of : String → List ℚ) (sector_of : String → Option String)
    (sqrtQ : ℚ → ℚ) : Except String Report := do
  let metrics ← p.calculate_metrics price_of returns_of sqrtQ (2 / 100)
  let allocation := p.get_allocation price_of
  let sector_allocation ← p.get_sector_allocation price_of sector_of
  let stocks_analysis :=
    p.stocks.map (fun kv => (kv.1, kv.2.get_summary price_of sector_of returns_of sqrtQ))
  return { name := p.name
           total_value := p.total_value price_of
           total_invested := p.total_invested
           total_gain_loss := p.total_gain_loss price_of
           total_return := p.total_return price_of
           cash := p.cash
           metrics := metrics
           allocation := allocation
           sector_allocation := sector_allocation
           stocks := stocks_analysis
           num_stocks := p.stocks.length }

/-- The per-stock slice of the persisted snapshot. -/
structure StockSnapshot where
  shares : ℚ
  purchase_price : ℚ
deriving DecidableEq

/-- The flat JSON snapshot written by Portfolio.save (via to_dict):
{name, cash, creation_date, stocks: {symbol: {shares, purchase_price}},
metadata}. -/
structure Snapshot where
  name : String
  cash : ℚ
  stocks : List (String × StockSnapshot)
  metadata : List (String × String)
deriving DecidableEq

/-- Portfolio.to_dict. -/
def Portfolio.to_dict (p : Portfolio) : Snapshot :=
  { name := p.name
    cash := p.cash
    stocks := p.stocks.map
      (fun kv => (kv.1, { shares := kv.2.shares, purchase_price := kv.2.purchase_price }))
    metadata := p.metadata }

/-- Portfolio.load.  save writes to_dict as JSON and load parses it back,
so the file round trip is the identity on the Snapshot; load then rebuilds
the portfolio by calling add_stock for every stored symbol. -/
def Portfolio.load (data : Snapshot) : Portfolio :=
  let p : Portfolio :=
    { name := data.name, stocks := [], cash := data.cash, metadata := data.metadata }
  data.stocks.foldl
    (fun acc kv => acc.add_stock kv.1 kv.2.shares kv.2.purchase_price none) p

/- PortfolioOptimizer (examples/advanced_optimization.py).  prepare_data
distills the history into per-asset mean daily returns and the annualized
covariance matrix; both are passed explicitly below, as is np.sqrt. -/

/-- L1 normalization `weights /= np.sum(weights)`. -/
def normalizeW (w : List ℚ) : List ℚ :=
  w.map (fun x => x / w.sum)

/-- PortfolioOptimizer.calculate_portfolio_performance: annualized return
Σ(mean_i · w_i) · 252 and volatility sqrt(wᵀ Σ w). -/
def calculate_portfolio_performance (mean_returns : List ℚ)
    (cov_matrix : List (List ℚ)) (sqrtQ : ℚ → ℚ) (weights : List ℚ) : ℚ × ℚ :=
  let ret := (List.zipWith (fun m w => m * w) mean_returns weights).sum * 252
  let var := (List.zipWith
      (fun w row => w * (List.zipWith (fun c v => c * v) row weights).sum)
      weights cov_matrix).sum
  (ret, sqrtQ var)

/-- Sharpe ratio of the i-th Monte-Carlo draw, exactly as computed inside
the optimize_sharpe_ratio loop.  draws i is the vector np.random.random
produced by the ambient global stream at iteration i. -/
def sharpeAt (mean_returns : List ℚ) (cov_matrix : List (List ℚ))
    (sqrtQ : ℚ → ℚ) (draws : ℕ → List ℚ) (risk_free_rate : ℚ) (i : ℕ) : ℚ :=
  let weights := normalizeW (draws i)
  let pr := calculate_portfolio_performance mean_returns cov_matrix sqrtQ weights
  (pr.1 - risk_free_rate) / pr.2

/-- np.argmax over indices 0..n-1: first index attaining the maximum
(a later index replaces the current best only on a strict improvement). -/
def argmaxIdx (f : ℕ → ℚ) : ℕ → ℕ
  | 0 => 0
  | n + 1 =>
      let j := argmaxIdx f n
      if f j < f n then n else j

/-- The fixed Monte-Carlo iteration count of the optimizer. -/
def num_portfolios : ℕ := 10000

/-- PortfolioOptimizer.optimize_sharpe_ratio.  The loop stores
(return, std, sharpe, i) per draw and takes np.argmax over the sharpe row;
results[3, idx] recovers the winning iteration index.  The source then
tries to reconstruct the winning weights by np.random.seed(idx) followed by
a fresh np.random.random(num_assets) — modeled by seeded_draw, a function
independent of draws, because the loop's vectors came from the ambient
global stream and not from seed idx. -/
def optimize_sharpe_ratio (symbols : List String) (mean_returns : List ℚ)
    (cov_matrix : List (List ℚ)) (sqrtQ : ℚ → ℚ) (draws : ℕ → List ℚ)
    (seeded_draw : ℕ → List ℚ) (risk_free_rate : ℚ) : List (String × ℚ) :=
  let max_sharpe_idx :=
    argmaxIdx (sharpeAt mean_returns cov_matrix sqrtQ draws risk_free_rate)
      num_portfolios
  let optimal_weights := normalizeW (seeded_draw max_sharpe_idx)
  symbols.zip optimal_weights

/- Concrete inputs used by the closed theorems and witnesses below. -/

/-- A holding of 10 shares at an average cost of 150 with its one recorded
buy, i.e. the state named by the spec's scenarios (built literally rather
than through Stock.init, whose defect is itself under scrutiny in C3). -/
def stock10at150 : Stock :=
  ⟨"AAPL", 10, 150, none, [⟨10, 150, "buy", 0⟩]⟩

/-- A second holding, 5 GOOGL shares at average cost 140. -/
def stockG : Stock :=
  ⟨"GOOGL", 5, 140, none, [⟨5, 140, "buy", 0⟩]⟩

/-- Portfolio with one holding and cash 3000 (save/load round trip). -/
def portfolioA : Portfolio :=
  ⟨"P", [("AAPL", stock10at150)], 3000, []⟩

/-- Portfolio with one holding and cash 0 (degraded-provider scenario). -/
def portfolioDegraded : Portfolio :=
  ⟨"P", [("AAPL", stock10at150)], 0, []⟩

/-- Portfolio with one holding and cash 1000 (sell scenario). -/
def portfolioSell : Portfolio :=
  ⟨"T", [("AAPL", stock10at150)], 1000, []⟩

/-- The spec's allocation scenario: cash 1000, AAPL 10@150, GOOGL 5@140. -/
def portfolioAlloc : Portfolio :=
  ⟨"T", [("AAPL", stock10at150), ("GOOGL", stockG)], 1000, []⟩

/-- Prices for the allocation scenario (purchase prices as current). -/
def demoPrices : String → ℚ :=
  fun s => if s = "AAPL" then 150 else if s = "GOOGL" then 140 else 0

/-- A portfolio whose cash balance is negative (the constructor accepts any
sign, and the spec itself notes cash "may be any sign in principle"). -/
def portfolioNegCash : Portfolio :=
  ⟨"P", [("AAPL", stock10at150)], -50, []⟩

/-- Constant current price of 10 for every symbol. -/
def price10 : String → ℚ := fun _ => 10

/-- Degraded provider: current price 0 for every symbol. -/
def zeroPrice : String → ℚ := fun _ => 0

/-- Degraded provider: empty price history / returns for every symbol. -/
def noReturns : String → List ℚ := fun _ => []

/-- Degraded provider: info dict without a sector for every symbol. -/
def noSector : String → Option String := fun _ => none

/-- Monte-Carlo draw stream whose draw 0 is [3, 1] and all later draws are
[1, 1]; with mean returns [2, 1] the first draw uniquely maximizes Sharpe. -/
def cexDraws : ℕ → List ℚ :=
  fun i => if i = 0 then [3, 1] else [1, 1]

/-- What np.random.random yields right after np.random.seed(idx): a stream
unrelated to the loop's ambient draws; here constantly [1, 3]. -/
def cexSeeded : ℕ → List ℚ := fun _ => [1, 3]

/-- A draw stream in which all 10,000 draws are the same vector [1, 1]. -/
def constDraws : ℕ → List ℚ := fun _ => [1, 1]

/- Helper lemmas on the dict model, the uppercase map and argmaxIdx. -/

theorem char_toUpper_idem (c : Char) : c.toUpper.toUpper = c.toUpper := by
  unfold Char.toUpper
  by_cases h : c.toNat ≥ 97 ∧ c.toNat ≤ 122
  · rw [if_pos h]
    have hv : (c.toNat - 32).isValidChar := Or.inl (by omega)
    have ht : (Char.ofNat (c.toNat - 32)).toNat = c.toNat - 32 := by
      rw [Char.ofNat, dif_pos hv]; rfl
    rw [if_neg]
    rw [ht]
    omega
  · rw [if_neg h, if_neg h]

theorem upper_idem (s : String) : upper (upper s) = upper s := by
  unfold upper
  simp only [List.map_map]
  have hc : Char.toUpper ∘ Char.toUpper = Char.toUpper := funext char_toUpper_idem
  rw [hc]

theorem containsKey_updateVal {α : Type} (l : List (String × α)) (k j : String)
    (f : α → α) : containsKey (updateVal l k f) j = containsKey l j := by
  induction l with
  | nil => rfl
  | cons kv rest ih =>
    obtain ⟨a, b⟩ := kv
    by_cases hk : a = k
    · subst hk
      by_cases hj : a = j <;> simp [updateVal, containsKey, findVal, hj]
    · simp only [updateVal, if_neg hk]
      by_cases hj : a = j
      · simp [containsKey, findVal, hj]
      · simp only [containsKey, findVal, if_neg hj]
        simpa [containsKey] using ih

theorem containsKey_append {α : Type} (l m : List (String × α)) (k : String) :
    containsKey (l ++ m) k = (containsKey l k || containsKey m k) := by
  induction l with
  | nil => simp [containsKey, findVal]
  | cons kv rest ih =>
    by_cases hk : kv.1 = k
    · simp [containsKey, findVal, hk]
    · simpa [containsKey, findVal, hk] using ih

theorem containsKey_removeKey {α : Type} (l : List (String × α)) (k : String) :
    containsKey (removeKey l k) k = false := by
  induction l with
  | nil => rfl
  | cons kv rest ih =>
    by_cases hk : kv.1 = k
    · simpa [removeKey, List.filter_cons, hk] using ih
    · simpa [removeKey, List.filter_cons, hk, containsKey, findVal] using ih

theorem dictInsert_fresh {α : Type} (l : List (String × α)) (k : String) (v : α)
    (h : containsKey l k = false) : dictInsert l k v = l ++ [(k, v)] := by
  induction l with
  | nil => rfl
  | cons kv rest ih =>
    by_cases hk : kv.1 = k
    · simp [containsKey, findVal, hk] at h
    · simp only [dictInsert, if_neg hk, List.cons_append]
      rw [ih (by simpa [containsKey, findVal, hk] using h)]

theorem containsKey_mapPair (l : List (String × Stock)) (g : String × Stock → ℚ)
    (k : String) :
    containsKey (l.map (fun kv => (kv.1, g kv))) k = containsKey l k := by
  induction l with
  | nil => rfl
  | cons kv rest ih =>
    by_cases hk : kv.1 = k
    · simp [containsKey, findVal, hk]
    · simp only [List.map_cons, containsKey, findVal, if_neg hk]
      simpa [containsKey] using ih

theorem buildAlloc_eq_map (g : String × Stock → ℚ) (l : List (String × Stock)) :
    ∀ acc : List (String × ℚ),
      (l.map Prod.fst).Nodup →
      (∀ kv ∈ l, containsKey acc kv.1 = false) →
      l.foldl (fun a kv => dictInsert a kv.1 (g kv)) acc
        = acc ++ l.map (fun kv => (kv.1, g kv)) := by
  induction l with
  | nil => intro acc _ _; simp
  | cons kv rest ih =>
    intro acc hnd hfresh
    rw [List.map_cons] at hnd
    have hnd2 := List.nodup_cons.mp hnd
    simp only [List.foldl_cons]
    rw [dictInsert_fresh acc kv.1 (g kv) (hfresh kv (by simp))]
    rw [ih (acc ++ [(kv.1, g kv)]) hnd2.2 ?fresh]
    · simp
    case fresh =>
      intro kv2 hkv2
      rw [containsKey_append]
      have h1 : containsKey acc kv2.1 = false := hfresh kv2 (by simp [hkv2])
      have h2 : ¬ kv.1 = kv2.1 := by
        intro he
        exact hnd2.1 (he ▸ (List.mem_map_of_mem Prod.fst hkv2))
      rw [h1]
      simp [containsKey, findVal, h2]

theorem sum_map_scale {α : Type} (l : List α) (g : α → ℚ) (c : ℚ) :
    (l.map (fun x => g x * c)).sum = (l.map g).sum * c := by
  induction l with
  | nil => simp
  | cons x xs ih => simp [ih, add_mul]

theorem sumVals_mapPair (l : List (String × Stock)) (g : String × Stock → ℚ) :
    sumVals (l.map (fun kv => (kv.1, g kv))) = (l.map g).sum := by
  have hc : (Prod.snd ∘ fun kv : String × Stock => (kv.1, g kv)) = g := by
    funext kv; rfl
  simp [sumVals, List.map_map, hc]

theorem sumVals_append (l m : List (String × ℚ)) :
    sumVals (l ++ m) = sumVals l + sumVals m := by
  simp [sumVals]

theorem argmaxIdx_lt (f : ℕ → ℚ) : ∀ n : ℕ, 0 < n → argmaxIdx f n < n := by
  intro n
  induction n with
  | zero => intro h; omega
  | succ m ih =>
    intro _
    simp only [argmaxIdx]
    by_cases hc : f (argmaxIdx f m) < f m
    · simp [hc]
    · simp only [if_neg hc]
      rcases Nat.eq_zero_or_pos m with hm | hm
      · subst hm; simp [argmaxIdx]
      · exact Nat.lt_succ_of_lt (ih hm)

theorem argmaxIdx_unique (f : ℕ → ℚ) :
    ∀ n k : ℕ, k < n → (∀ j, j < n → j ≠ k → f j < f k) → argmaxIdx f n = k := by
  intro n
  induction n with
  | zero => intro k hk _; omega
  | succ m ih =>
    intro k hk hmax
    simp only [argmaxIdx]
    rcases Nat.lt_succ_iff_lt_or_eq.mp hk with hkm | hkm
    · have hm : argmaxIdx f m = k :=
        ih k hkm (fun j hj hne => hmax j (Nat.lt_succ_of_lt hj) hne)
      rw [hm]
      have hflt : f m < f k := hmax m (Nat.lt_succ_self m) (by omega)
      rw [if_neg (not_lt.mpr (le_of_lt hflt))]
    · subst hkm
      rcases Nat.eq_zero_or_pos k with hm0 | hmpos
      · subst hm0; simp [argmaxIdx]
      · have hlt : argmaxIdx f k < k := argmaxIdx_lt f k hmpos
        have hflt : f (argmaxIdx f k) < f k := hmax _ (Nat.lt_succ_of_lt hlt) (by omega)
        rw [if_pos hflt]

theorem argmaxIdx_eq_zero (f : ℕ → ℚ) (h : ∀ i, f i ≤ f 0) :
    ∀ n, argmaxIdx f n = 0 := by
  intro n
  induction n with
  | zero => rfl
  | succ m ih =>
    simp only [argmaxIdx, ih]
    exact if_neg (not_lt.mpr (h m))

/- Claim theorems. -/

/-- C1 (code bug): the spec demands that an oversell fail with a
ValidationError and be rejected atomically, leaving share count, average
cost and the transaction log untouched.  The code raises the error but only
after appending the sell Transaction and driving the share count negative:
selling 15 from a holding of 10 shares at average cost 150 raises, yet
leaves the holding with -5 shares and a second (sell) transaction in the
log; only the average cost is untouched. -/
theorem oversell_raises_but_mutates_state :
    (stock10at150.add_transaction 15 160 "sell" 0).2.isSome = true ∧
    (stock10at150.add_transaction 15 160 "sell" 0).1.shares = -5 ∧
    (stock10at150.add_transaction 15 160 "sell" 0).1.transactions.length = 2 ∧
    (stock10at150.add_transaction 15 160 "sell" 0).1.purchase_price = 150 := by
  simp [stock10at150, Stock.add_transaction, Transaction.total_cost]
  norm_num

/-- C2 (code bug): the save/load round trip is claimed to reproduce name,
cash and each holding's net shares and average cost.  On the portfolio "P"
with cash 3000 holding AAPL 10@150, load rebuilds the holding through
add_stock, which deducts the cost 1500 from the restored cash a second time
and doubles the share count through the Stock constructor: the reloaded
portfolio has cash 1500 and 20 AAPL shares instead of cash 3000 and 10
shares (name, symbol set and average cost do survive). -/
theorem save_load_roundtrip_broken :
    (Portfolio.load portfolioA.to_dict).name = "P" ∧
    (Portfolio.load portfolioA.to_dict).cash = 1500 ∧
    portfolioA.cash = 3000 ∧
    (findVal (Portfolio.load portfolioA.to_dict).stocks "AAPL").map Stock.shares
      = some 20 ∧
    (findVal (Portfolio.load portfolioA.to_dict).stocks "AAPL").map
        Stock.purchase_price = some 150 ∧
    (findVal portfolioA.stocks "AAPL").map Stock.shares = some 10 := by
  simp [portfolioA, stock10at150, Portfolio.load, Portfolio.to_dict,
        Portfolio.add_stock, Stock.init, Stock.add_transaction,
        Transaction.total_cost, containsKey, findVal, updateVal, upper]
  norm_num [findVal]

/-- C3 (code bug): a first buy of s shares at price p is claimed to create
a holding of exactly s shares at average cost p with one buy transaction.
Stock.__init__ presets shares = s and then replays the same buy through
add_transaction, so the created holding records 2s shares: for s = 10,
p = 150 the new holding has 20 shares (average cost 150 and the single
10-share buy transaction are as claimed).  The repo's own test
test_stock_creation asserts shares == 10 and is contradicted by the code. -/
theorem stock_init_doubles_shares :
    (Stock.init "AAPL" 10 150 none).shares = 20 ∧
    (Stock.init "AAPL" 10 150 none).purchase_price = 150 ∧
    (Stock.init "AAPL" 10 150 none).transactions =
      [{ shares := 10, price := 150, transaction_type := "buy", fees := 0 }] := by
  norm_num [Stock.init, Stock.add_transaction, Transaction.total_cost, upper]

/-- C4 (confirmed): add_stock deducts shares × price from cash exactly when
cash ≥ cost and otherwise leaves cash unchanged; in both cases the
(uppercased) symbol ends up present in the portfolio, and a buy can never
drive a non-negative cash balance negative. -/
theorem add_stock_cash_rule (p : Portfolio) (symbol : String)
    (shares purchase_price : ℚ) (name : Option String) :
    ((p.add_stock symbol shares purchase_price name).cash =
       if shares * purchase_price ≤ p.cash then p.cash - shares * purchase_price
       else p.cash) ∧
    containsKey (p.add_stock symbol shares purchase_price name).stocks
      (upper symbol) = true ∧
    (0 ≤ p.cash → 0 ≤ (p.add_stock symbol shares purchase_price name).cash) := by
  have hcash : (p.add_stock symbol shares purchase_price name).cash =
      if shares * purchase_price ≤ p.cash then p.cash - shares * purchase_price
      else p.cash := by
    simp only [Portfolio.add_stock, ge_iff_le, apply_ite (Portfolio.cash)]
    by_cases hmem : containsKey p.stocks (upper symbol) = true <;> simp [hmem]
  refine ⟨hcash, ?_, ?_⟩
  · simp only [Portfolio.add_stock, ge_iff_le, apply_ite (Portfolio.stocks)]
    by_cases hmem : containsKey p.stocks (upper symbol) = true
    · by_cases hle : shares * purchase_price ≤ p.cash <;>
        simp [hmem, hle, containsKey_updateVal]
    · have hm2 : containsKey p.stocks (upper symbol) = false := by
        simpa using hmem
      by_cases hle : shares * purchase_price ≤ p.cash
      · simp only [hm2, hle, Bool.false_eq_true, if_false, if_true]
        rw [containsKey_append, hm2]
        simp [containsKey, findVal]
      · simp only [hm2, hle, Bool.false_eq_true, if_false]
        rw [containsKey_append, hm2]
        simp [containsKey, findVal]
  · intro h0
    rw [hcash]
    by_cases hle : shares * purchase_price ≤ p.cash
    · rw [if_pos hle]; linarith
    · rw [if_neg hle]; exact h0

/-- C4 witness: buying 10 shares at 150 from cash 10000 leaves cash 8500,
the AAPL key present and the balance non-negative. -/
theorem add_stock_cash_rule_witness :
    ((Portfolio.mk "T" [] 10000 []).add_stock "AAPL" 10 150 none).cash = 8500 ∧
    containsKey ((Portfolio.mk "T" [] 10000 []).add_stock "AAPL" 10 150 none).stocks
      "AAPL" = true ∧
    (0:ℚ) ≤ ((Portfolio.mk "T" [] 10000 []).add_stock "AAPL" 10 150 none).cash := by
  have h := add_stock_cash_rule (Portfolio.mk "T" [] 10000 []) "AAPL" 10 150 none
  refine ⟨?_, ?_, h.2.2 (by norm_num)⟩
  · rw [h.1]; norm_num
  · have h2 := h.2.1
    rw [show upper "AAPL" = "AAPL" from rfl] at h2
    exact h2

/-- C5 (corrected): the Max-Sharpe optimizer draws 10,000 weight vectors,
computes each Sharpe ratio as specified and finds the index of the (first)
maximal one, but the mapping it returns is NOT that drawn vector: it is the
normalization of a fresh vector drawn after reseeding the generator with
the winning index.  Under a draw stream whose Sharpe is uniquely maximal at
index k, the returned mapping is symbols zipped with
normalizeW (seeded_draw k). -/
theorem optimize_sharpe_returns_reseeded_draw (symbols : List String)
    (mean_returns : List ℚ) (cov_matrix : List (List ℚ)) (sqrtQ : ℚ → ℚ)
    (draws seeded_draw : ℕ → List ℚ) (risk_free_rate : ℚ) (k : ℕ)
    (hk : k < num_portfolios)
    (hmax : ∀ j, j < num_portfolios → j ≠ k →
      sharpeAt mean_returns cov_matrix sqrtQ draws risk_free_rate j <
      sharpeAt mean_returns cov_matrix sqrtQ draws risk_free_rate k) :
    optimize_sharpe_ratio symbols mean_returns cov_matrix sqrtQ draws
      seeded_draw risk_free_rate = symbols.zip (normalizeW (seeded_draw k)) := by
  unfold optimize_sharpe_ratio
  rw [argmaxIdx_unique _ num_portfolios k hk hmax]

/-- C5 witness: with mean returns [2, 1], zero covariance, draw 0 = [3, 1]
(uniquely maximal Sharpe) and all later draws [1, 1], reseeding yields
[1, 3], so the optimizer returns A ↦ 1/4, B ↦ 3/4. -/
theorem optimize_sharpe_returns_reseeded_draw_witness :
    optimize_sharpe_ratio ["A", "B"] [2, 1] [[0, 0], [0, 0]] (fun _ => 1)
      cexDraws cexSeeded (1 / 50) = [("A", 1 / 4), ("B", 3 / 4)] := by
  have hmax : ∀ j, j < num_portfolios → j ≠ 0 →
      sharpeAt [2, 1] [[0, 0], [0, 0]] (fun _ => 1) cexDraws (1 / 50) j <
      sharpeAt [2, 1] [[0, 0], [0, 0]] (fun _ => 1) cexDraws (1 / 50) 0 := by
    intro j _ hj
    simp [sharpeAt, cexDraws, hj, normalizeW, calculate_portfolio_performance]
    norm_num
  have h := optimize_sharpe_returns_reseeded_draw ["A", "B"] [2, 1]
    [[0, 0], [0, 0]] (fun _ => 1) cexDraws cexSeeded (1 / 50) 0
    (by norm_num [num_portfolios]) hmax
  rw [h]
  norm_num [cexSeeded, normalizeW]

/-- C5 counterexample: with every one of the 10,000 draws equal to [1, 1],
the only drawn (normalized) vector — hence the one achieving the maximum
Sharpe — is [1/2, 1/2]; yet the optimizer returns A ↦ 1/4, B ↦ 3/4, the
normalization of the post-reseed draw [1, 3].  So the returned mapping is
not the drawn vector that achieved the maximum Sharpe. -/
theorem optimize_sharpe_counterexample :
    optimize_sharpe_ratio ["A", "B"] [2, 1] [[0, 0], [0, 0]] (fun _ => 1)
      constDraws cexSeeded (1 / 50) = [("A", 1 / 4), ("B", 3 / 4)] ∧
    normalizeW (constDraws 0) = [1 / 2, 1 / 2] ∧
    [("A", (1:ℚ) / 4), ("B", 3 / 4)] ≠ [("A", (1:ℚ) / 2), ("B", 1 / 2)] := by
  refine ⟨?_, by norm_num [constDraws, normalizeW], by norm_num⟩
  have hconst : ∀ i, sharpeAt [2, 1] [[0, 0], [0, 0]] (fun _ => 1) constDraws (1 / 50) i
      ≤ sharpeAt [2, 1] [[0, 0], [0, 0]] (fun _ => 1) constDraws (1 / 50) 0 := by
    intro i
    simp [sharpeAt, constDraws]
  unfold optimize_sharpe_ratio
  rw [argmaxIdx_eq_zero _ hconst]
  norm_num [cexSeeded, normalizeW]

/-- C6 (code bug): with a fully degraded provider (prices 0, empty
histories, no metadata) the claim says every reporting operation returns a
well-formed zeroed result and never raises, even at total value 0.
get_allocation and calculate_metrics indeed degrade (empty dict, zeroed
metrics), but get_sector_allocation divides each sector's value by the
total in plain Python and raises ZeroDivisionError when the total is 0 and
at least one holding exists — and analyze, which calls it, raises too. -/
theorem degraded_sector_allocation_raises :
    portfolioDegraded.total_value zeroPrice = 0 ∧
    portfolioDegraded.get_allocation zeroPrice = [] ∧
    portfolioDegraded.calculate_metrics zeroPrice noReturns (fun x => x) (2 / 100) =
      Except.ok { total_return := -100, annualized_return := none,
                  volatility := 0, sharpe_ratio := 0, max_drawdown := 0,
                  var_95 := 0 } ∧
    portfolioDegraded.get_sector_allocation zeroPrice noSector =
      Except.error "ZeroDivisionError" ∧
    portfolioDegraded.analyze zeroPrice noReturns noSector (fun x => x) =
      Except.error "ZeroDivisionError" := by
  simp [portfolioDegraded, stock10at150, zeroPrice, noReturns, noSector,
        Portfolio.total_value, Portfolio.get_allocation,
        Portfolio.calculate_metrics, Portfolio.get_sector_allocation,
        Portfolio.analyze, Portfolio.calculate_portfolio_returns,
        Portfolio.total_return, Portfolio.total_gain_loss,
        Portfolio.total_invested, Stock.current_value, Stock.total_invested,
        Stock.calculate_returns, addToVal, Bind.bind, Except.bind,
        Pure.pure, Except.pure]

/-- C7 (confirmed): a buy of s shares at price p with fees f on a holding
of n shares at average cost c succeeds and yields n + s shares at average
cost (n·c + s·p + f) / (n + s). -/
theorem buy_updates_shares_and_avg_cost (st : Stock) (shares price fees : ℚ)
    (h : 0 < st.shares + shares) :
    (st.add_transaction shares price "buy" fees).2 = none ∧
    (st.add_transaction shares price "buy" fees).1.shares = st.shares + shares ∧
    (st.add_transaction shares price "buy" fees).1.purchase_price =
      (st.shares * st.purchase_price + shares * price + fees) / (st.shares + shares) := by
  simp [Stock.add_transaction, Transaction.total_cost, h]
  ring_nf

/-- C7 witness: 10 shares at 150, buy 5 at 155 → 15 shares at 455/3
(≈ 151.667). -/
theorem buy_updates_shares_and_avg_cost_witness :
    (0:ℚ) < 10 + 5 ∧
    ((Stock.mk "AAPL" 10 150 none []).add_transaction 5 155 "buy" 0).1.shares = 15 ∧
    ((Stock.mk "AAPL" 10 150 none []).add_transaction 5 155 "buy" 0).1.purchase_price
      = 455 / 3 := by
  have h := buy_updates_shares_and_avg_cost (Stock.mk "AAPL" 10 150 none []) 5 155 0
    (by norm_num)
  refine ⟨by norm_num, ?_, ?_⟩
  · rw [h.2.1]; norm_num
  · rw [h.2.2]; norm_num

/-- C8 (confirmed): sell_stock on an absent (uppercased) symbol fails with
the not-found error and leaves the portfolio untouched; on a success (sold
shares ≤ held) the cash balance grows by exactly shares × price, and the
holding's key remains in the portfolio exactly when the resulting share
count is not 0. -/
theorem sell_stock_rule (p : Portfolio) (symbol : String) (shares price : ℚ) :
    (findVal p.stocks (upper symbol) = none →
       p.sell_stock symbol shares price =
         (p, some "ValueError: stock not found in portfolio")) ∧
    (∀ st : Stock, findVal p.stocks (upper symbol) = some st → shares ≤ st.shares →
       (p.sell_stock symbol shares price).2 = none ∧
       (p.sell_stock symbol shares price).1.cash = p.cash + shares * price ∧
       (containsKey (p.sell_stock symbol shares price).1.stocks (upper symbol) = false
          ↔ st.shares - shares = 0)) := by
  constructor
  · intro h
    simp [Portfolio.sell_stock, h]
  · intro st hfind hle
    have hnn : ¬ (st.shares - shares < 0) := by linarith
    have hck : containsKey p.stocks (upper symbol) = true := by
      simp [containsKey, hfind]
    by_cases hz : st.shares - shares = 0
    · simp [Portfolio.sell_stock, hfind, Stock.add_transaction, hnn, hz,
            Portfolio.remove_stock, upper_idem, containsKey_updateVal, hck,
            containsKey_removeKey]
    · simp [Portfolio.sell_stock, hfind, Stock.add_transaction, hnn, hz,
            containsKey_updateVal, hck]

/-- C8 witness: on the portfolio holding AAPL 10@150 with cash 1000,
selling MSFT fails with the not-found error, while selling 4 AAPL at 160
succeeds, raises cash to 1640 and keeps the AAPL holding. -/
theorem sell_stock_rule_witness :
    portfolioSell.sell_stock "MSFT" 1 10 =
      (portfolioSell, some "ValueError: stock not found in portfolio") ∧
    (portfolioSell.sell_stock "AAPL" 4 160).2 = none ∧
    (portfolioSell.sell_stock "AAPL" 4 160).1.cash = 1640 ∧
    containsKey (portfolioSell.sell_stock "AAPL" 4 160).1.stocks "AAPL" = true := by
  have h1 := (sell_stock_rule portfolioSell "MSFT" 1 10).1 (by rfl)
  have h2 := (sell_stock_rule portfolioSell "AAPL" 4 160).2 stock10at150
    (by rfl) (by norm_num [stock10at150])
  refine ⟨h1, h2.1, ?_, ?_⟩
  · rw [h2.2.1]; norm_num [portfolioSell]
  · have h3 := h2.2.2
    rw [show upper "AAPL" = "AAPL" from rfl] at h3
    rcases hb : containsKey (portfolioSell.sell_stock "AAPL" 4 160).1.stocks "AAPL"
      with _ | _
    · exfalso
      have h4 : stock10at150.shares - 4 = 0 := h3.mp hb
      norm_num [stock10at150] at h4
    · rfl

/-- C9 (corrected): for a portfolio with unique stock keys, no holding
named CASH, non-negative cash and positive total value, the allocation
percentages sum to exactly 100 (hence within the 0.01 tolerance) and a
CASH entry appears exactly when cash > 0.  The claim as stated — for every
portfolio with positive total value — fails when cash is negative. -/
theorem get_allocation_rule (p : Portfolio) (price_of : String → ℚ)
    (hnd : (p.stocks.map Prod.fst).Nodup)
    (hkey : containsKey p.stocks "CASH" = false)
    (hc : 0 ≤ p.cash)
    (ht : 0 < p.total_value price_of) :
    sumVals (p.get_allocation price_of) = 100 ∧
    |sumVals (p.get_allocation price_of) - 100| ≤ 1 / 100 ∧
    (containsKey (p.get_allocation price_of) "CASH" = true ↔ 0 < p.cash) := by
  have htne : p.total_value price_of ≠ 0 := ne_of_gt ht
  have hTS : p.total_value price_of =
      (p.stocks.map (fun kv => kv.2.current_value price_of)).sum + p.cash := rfl
  have hbase : p.stocks.foldl
      (fun a kv => dictInsert a kv.1 (kv.2.current_value price_of / p.total_value price_of * 100)) []
      = p.stocks.map
          (fun kv => (kv.1, kv.2.current_value price_of / p.total_value price_of * 100)) := by
    simpa using buildAlloc_eq_map
      (fun kv => kv.2.current_value price_of / p.total_value price_of * 100) p.stocks [] hnd
      (fun kv _ => rfl)
  have hsum : sumVals (p.stocks.map
        (fun kv => (kv.1, kv.2.current_value price_of / p.total_value price_of * 100)))
      = (p.stocks.map (fun kv => kv.2.current_value price_of)).sum
          / p.total_value price_of * 100 := by
    rw [sumVals_mapPair]
    have hfun : (fun kv : String × Stock =>
          kv.2.current_value price_of / p.total_value price_of * 100)
        = (fun kv : String × Stock =>
            kv.2.current_value price_of * ((p.total_value price_of)⁻¹ * 100)) := by
      funext kv; rw [div_eq_mul_inv, mul_assoc]
    rw [hfun, sum_map_scale, div_eq_mul_inv, mul_assoc]
  have hkeybase : containsKey (p.stocks.map
        (fun kv => (kv.1, kv.2.current_value price_of / p.total_value price_of * 100)))
        "CASH" = false := by
    rw [containsKey_mapPair]; exact hkey
  by_cases hpos : 0 < p.cash
  · have hresult : p.get_allocation price_of
        = p.stocks.map
            (fun kv => (kv.1, kv.2.current_value price_of / p.total_value price_of * 100))
          ++ [("CASH", p.cash / p.total_value price_of * 100)] := by
      simp only [Portfolio.get_allocation]
      rw [if_neg htne, if_pos hpos, hbase, dictInsert_fresh _ _ _ hkeybase]
    have hsumall : sumVals (p.get_allocation price_of) = 100 := by
      rw [hresult, sumVals_append, hsum]
      have hone : sumVals [("CASH", p.cash / p.total_value price_of * 100)]
          = p.cash / p.total_value price_of * 100 := by simp [sumVals]
      rw [hone]
      field_simp
      linarith [hTS]
    refine ⟨hsumall, by rw [hsumall]; norm_num, ?_⟩
    rw [hresult, containsKey_append, hkeybase]
    simp [containsKey, findVal, hpos]
  · have hzero : p.cash = 0 := le_antisymm (not_lt.mp hpos) hc
    have hresult : p.get_allocation price_of
        = p.stocks.map
            (fun kv => (kv.1, kv.2.current_value price_of / p.total_value price_of * 100)) := by
      simp only [Portfolio.get_allocation]
      rw [if_neg htne, if_neg hpos, hbase]
    have hsumall : sumVals (p.get_allocation price_of) = 100 := by
      rw [hresult, hsum]
      field_simp
      linarith [hTS, hzero]
    refine ⟨hsumall, by rw [hsumall]; norm_num, ?_⟩
    rw [hresult, hkeybase]
    simp [hpos]

/-- C9 witness: the spec's scenario (cash 1000, AAPL 10@150, GOOGL 5@140 at
those prices) sums to exactly 100 with a CASH entry present. -/
theorem get_allocation_rule_witness :
    sumVals (portfolioAlloc.get_allocation demoPrices) = 100 ∧
    (containsKey (portfolioAlloc.get_allocation demoPrices) "CASH" = true
       ↔ 0 < portfolioAlloc.cash) := by
  have h := get_allocation_rule portfolioAlloc demoPrices
    (by decide)
    (by decide)
    (by norm_num [portfolioAlloc])
    (by simp [portfolioAlloc, Portfolio.total_value, Stock.current_value,
              stock10at150, stockG, demoPrices]
        norm_num)
  exact ⟨h.1, h.2.2⟩

/-- C9 counterexample: a portfolio holding AAPL 10 shares (current price
10) with cash -50 has total value 50 > 0, yet its allocation is
{AAPL: 200}, summing to 200 — far outside 100 ± 0.01 — so the claim as
stated fails for a portfolio with negative cash. -/
theorem get_allocation_counterexample :
    portfolioNegCash.total_value price10 = 50 ∧
    portfolioNegCash.get_allocation price10 = [("AAPL", 200)] ∧
    sumVals (portfolioNegCash.get_allocation price10) = 200 ∧
    ¬ |sumVals (portfolioNegCash.get_allocation price10) - 100| ≤ 1 / 100 := by
  have h1 : portfolioNegCash.total_value price10 = 50 := by
    norm_num [portfolioNegCash, stock10at150, Portfolio.total_value,
              Stock.current_value, price10]
  have h2 : portfolioNegCash.get_allocation price10 = [("AAPL", 200)] := by
    simp only [Portfolio.get_allocation, h1]
    norm_num [portfolioNegCash, stock10at150, Stock.current_value, price10,
              dictInsert]
  refine ⟨h1, h2, ?_, ?_⟩
  · rw [h2]; norm_num [sumVals]
  · rw [h2]; norm_num [sumVals]

/-- C10 (confirmed): a successful sell (sold ≤ held) leaves the average
cost, the symbol, the display name and every previously recorded
transaction untouched; the only changes are the share count dropping by the
sold amount and one sell transaction being appended. -/
theorem sell_preserves_avg_cost_and_history (st : Stock) (shares price fees : ℚ)
    (h : shares ≤ st.shares) :
    (st.add_transaction shares price "sell" fees).2 = none ∧
    (st.add_transaction shares price "sell" fees).1.shares = st.shares - shares ∧
    (st.add_transaction shares price "sell" fees).1.purchase_price = st.purchase_price ∧
    (st.add_transaction shares price "sell" fees).1.transactions =
      st.transactions ++ [⟨shares, price, "sell", fees⟩] ∧
    (st.add_transaction shares price "sell" fees).1.symbol = st.symbol ∧
    (st.add_transaction shares price "sell" fees).1.name = st.name := by
  have hnn : ¬ (st.shares - shares < 0) := by linarith
  simp [Stock.add_transaction, hnn]

/-- C10 witness: selling 3 of 10 shares at 160 succeeds, leaving 7 shares
at the unchanged average cost 150. -/
theorem sell_preserves_avg_cost_and_history_witness :
    (3:ℚ) ≤ 10 ∧
    ((Stock.mk "AAPL" 10 150 none []).add_transaction 3 160 "sell" 0).1.shares = 7 ∧
    ((Stock.mk "AAPL" 10 150 none []).add_transaction 3 160 "sell" 0).1.purchase_price
      = 150 := by
  have h := sell_preserves_avg_cost_and_history (Stock.mk "AAPL" 10 150 none []) 3 160 0
    (by norm_num)
  refine ⟨by norm_num, ?_, ?_⟩
  · rw [h.2.1]; norm_num
  · rw [h.2.2.1]

end PortfolioAnalyzer
